import Mathlib

/-
  Verification of the multiplatform C utilities (thread.c / mpthread.h,
  time.c / mptime.h) against their natural-language specification.

  The C sources are shallowly embedded: pure computations become Lean
  functions on Nat/Int (machine wraparound is written out as explicit
  modular arithmetic), OS calls become explicit parameters or small state
  models, and the Windows lazy mutex initialization is embedded as a
  small-step transition system over an arbitrary finite set of threads.
-/

namespace Time

/-- Model of struct timespec: seconds and nanoseconds, both nonnegative. -/
structure Timespec where
  tv_sec : Nat
  tv_nsec : Nat
deriving DecidableEq, Repr

/-- From time.c / mptime.h: #define MILLISECONDS 1000 -/
def MILLISECONDS : Nat := 1000

/-- From time.c / mptime.h: #define MICROSECONDS 1000000 -/
def MICROSECONDS : Nat := 1000000

/-- From time.c (POSIX milliseconds): given the timespec read by
ts_gettime, returns ((uint64_t) ts.tv_sec * MILLISECONDS) + (ts.tv_nsec / 1000000). -/
def milliseconds (ts : Timespec) : Nat :=
  ts.tv_sec * MILLISECONDS + ts.tv_nsec / 1000000

/-- From time.c (POSIX microseconds): given the timespec read by
ts_gettime, returns ((uint64_t) ts.tv_sec * MICROSECONDS) + (ts.tv_nsec / 1000). -/
def microseconds (ts : Timespec) : Nat :=
  ts.tv_sec * MICROSECONDS + ts.tv_nsec / 1000

/-- 2^64, the modulus of the uint64_t arithmetic used by the time.c build. -/
def U64 : Nat := 18446744073709551616

/-- C unsigned 64-bit subtraction a - b, written out as modular arithmetic. -/
def subU64 (a b : Nat) : Nat := (a % U64 + (U64 - b % U64)) % U64

/-- From time.c: #define millielapsed(ms) ( milliseconds() - ms ), where the
value of milliseconds() is passed in as now and the subtraction is the
uint64_t subtraction of the time.c build.  The mptime.h build is the same
macro over long arithmetic. -/
def millielapsed (now ms : Nat) : Nat := subU64 now ms

/-- From time.c: #define microelapsed(us) ( microseconds() - us ), where the
value of microseconds() is passed in as now. -/
def microelapsed (now us : Nat) : Nat := subU64 now us

/-- From time.c / mptime.h (POSIX millisleep): the timespec passed to the
single nanosleep call: tv_sec = ms / MILLISECONDS and
tv_nsec = (ms - tv_sec * MILLISECONDS) * 1000000.  The source calls
nanosleep(&ts, &ts) exactly once; the retry loop for uninterruptible sleep
is present only as a comment. -/
def millisleep (ms : Nat) : Timespec :=
  ⟨ms / MILLISECONDS, (ms - (ms / MILLISECONDS) * MILLISECONDS) * 1000000⟩

/-- Wrap of a mathematical integer into a 4-byte signed long, as assumed by
the NOTE comments of mptime.h (time range with a 4 byte long). -/
def long32_of (n : Int) : Int := (n + 2147483648) % 4294967296 - 2147483648

/-- From mptime.h (POSIX milliseconds, long return type): the millisecond
timestamp computed in 4-byte long arithmetic. -/
def mptime_milliseconds (ts : Timespec) : Int :=
  long32_of ((ts.tv_sec : Int) * 1000 + (ts.tv_nsec : Int) / 1000000)

/-- From mptime.h (POSIX microseconds, long return type): the microsecond
timestamp computed in 4-byte long arithmetic. -/
def mptime_microseconds (ts : Timespec) : Int :=
  long32_of ((ts.tv_sec : Int) * 1000000 + (ts.tv_nsec : Int) / 1000)

lemma long32_of_eq_self (m : Int) (h0 : 0 ≤ m) (h1 : m < 2147483648) :
    long32_of m = m := by
  unfold long32_of
  omega

end Time

namespace ThreadC

/-- From thread.c (POSIX thread_wait): joinResult stands for the value
returned by pthread_join; the function stores 0 into *threadid and returns
the join result.  Result is (returned error code, value left in *threadid). -/
def thread_wait (threadid : Nat) (joinResult : Int) : Int × Nat :=
  let _ := threadid
  (joinResult, 0)

/-- From thread.c (Windows thread_wait): openOk stands for OpenThread
returning a non-NULL handle (openErr is GetLastError otherwise), waitFail
for WaitForSingleObject returning nonzero (waitErr is GetLastError then).
On open failure the function returns early, leaving *threadid untouched;
otherwise it closes the handle, stores 0 into *threadid and returns the
error code.  Result is (returned error code, value left in *threadid). -/
def thread_wait_win (threadid : Nat) (openOk : Bool) (openErr : Int)
    (waitFail : Bool) (waitErr : Int) : Int × Nat :=
  if openOk = false then (openErr, threadid)
  else
    let ecode : Int := if waitFail then waitErr else 0
    (ecode, 0)

/-- From thread.c thread_multiwait: the for loop from index i, with w giving
the error code returned by thread_wait at each index, and ecode the
accumulator (if(temp && !ecode) ecode = temp).  Returns the final ecode and
the trace of indices on which thread_wait was invoked, in call order. -/
def multiwaitFrom (w : Nat → Int) (len i : Nat) (ecode : Int) : Int × List Nat :=
  if h : i < len then
    let temp := w i
    let ecode2 := if temp ≠ 0 ∧ ecode = 0 then temp else ecode
    let r := multiwaitFrom w len (i + 1) ecode2
    (r.1, i :: r.2)
  else (ecode, [])
termination_by len - i
decreasing_by omega

/-- From thread.c thread_multiwait: ecode = temp = 0; loop i = 0..len-1. -/
def thread_multiwait (w : Nat → Int) (len : Nat) : Int × List Nat :=
  multiwaitFrom w len 0 0

lemma multiwaitFrom_spec (w : Nat → Int) (len : Nat) :
    ∀ d i ecode, i + d = len →
      (multiwaitFrom w len i ecode).2 = List.range' i d ∧
      (multiwaitFrom w len i ecode).1 =
        (if ecode ≠ 0 then ecode
         else (((List.range' i d).map w).find? (fun t => decide (t ≠ 0))).getD 0) := by
  intro d
  induction d with
  | zero =>
      intro i ecode hi
      rw [multiwaitFrom]
      simp only [Nat.add_zero] at hi
      subst hi
      simp [List.range']
      split <;> simp_all
  | succ d ih =>
      intro i ecode hi
      have hlt : i < len := by omega
      rw [multiwaitFrom]
      simp only [hlt, dif_pos]
      have hr := ih (i + 1) (if w i ≠ 0 ∧ ecode = 0 then w i else ecode) (by omega)
      refine ⟨?_, ?_⟩
      · simp [List.range', hr.1]
      · rw [hr.2]
        by_cases he : ecode = 0
        · by_cases hw : w i = 0
          · simp [he, hw, List.range', List.find?]
          · simp [he, hw, List.range', List.find?]
        · simp [he, List.range', List.find?]

end ThreadC

/-- Claim C2: thread_multiwait calls thread_wait exactly once on each of the
len handles in index order (trace = 0, 1, ..., len-1), never stopping at a
failure, and returns 0 when every join succeeded, otherwise the error code
of the join at the smallest failing index (later error codes discarded). -/
theorem thread_multiwait_joins_all_and_returns_first_error
    (w : Nat → Int) (len : Nat) :
    (ThreadC.thread_multiwait w len).2 = List.range len ∧
    (ThreadC.thread_multiwait w len).1 =
      (((List.range len).map w).find? (fun t => decide (t ≠ 0))).getD 0 := by
  have h := ThreadC.multiwaitFrom_spec w len len 0 0 (by omega)
  rw [List.range_eq_range']
  simpa [ThreadC.thread_multiwait] using h

/-- Claim C5: thread_wait invalidates the handle before returning: the POSIX
backend stores 0 into *threadid regardless of join outcome, and the Windows
backend stores 0 into *threadid on both the success path and the
join-failure path (whenever the thread handle was opened). -/
theorem thread_wait_invalidates_handle :
    (∀ tid joinResult, (ThreadC.thread_wait tid joinResult).2 = 0) ∧
    (∀ tid openErr waitFail waitErr,
      (ThreadC.thread_wait_win tid true openErr waitFail waitErr).2 = 0) := by
  constructor
  · intro tid joinResult
    rfl
  · intro tid openErr waitFail waitErr
    rfl

/-- Claim C6: millielapsed returns exactly milliseconds() minus the start,
and microelapsed exactly microseconds() minus the start: the arithmetic
difference between the current timestamp and the given start, with no
clamping or adjustment. -/
theorem elapsed_is_plain_difference (now ms us : Nat)
    (hms : ms ≤ now) (hus : us ≤ now) (hnow : now < Time.U64) :
    Time.millielapsed now ms = now - ms ∧ Time.microelapsed now us = now - us := by
  unfold Time.millielapsed Time.microelapsed Time.subU64 Time.U64
  unfold Time.U64 at hnow
  omega

theorem elapsed_is_plain_difference_witness :
    Time.millielapsed 1000 250 = 750 ∧ Time.microelapsed 1000 4 = 996 :=
  elapsed_is_plain_difference 1000 250 4 (by decide) (by decide) (by decide)

/-- Claim C7: millisleep on the POSIX backend builds a timespec with
tv_sec = d / 1000 and tv_nsec = (d - tv_sec * 1000) * 1000000, so that
tv_sec * 1000 + tv_nsec / 1000000 = d and 0 ≤ tv_nsec < 10^9, and passes it
to a single interruptible nanosleep call. -/
theorem millisleep_requests_exact_duration (d : Nat) :
    (Time.millisleep d).tv_sec = d / 1000 ∧
    (Time.millisleep d).tv_nsec = (d - (d / 1000) * 1000) * 1000000 ∧
    (Time.millisleep d).tv_sec * 1000 + (Time.millisleep d).tv_nsec / 1000000 = d ∧
    (Time.millisleep d).tv_nsec < 1000000000 := by
  unfold Time.millisleep Time.MILLISECONDS
  refine ⟨rfl, rfl, ?_, ?_⟩ <;> simp only [] <;> omega

/-- Claim C9: the two POSIX timestamp functions are consistent: for a
timespec with tv_nsec < 10^9, the millisecond timestamp equals the
microsecond timestamp divided (integer division) by 1000. -/
theorem milliseconds_eq_microseconds_div_thousand (ts : Time.Timespec)
    (h : ts.tv_nsec < 1000000000) :
    Time.milliseconds ts = Time.microseconds ts / 1000 := by
  unfold Time.milliseconds Time.microseconds Time.MILLISECONDS Time.MICROSECONDS
  omega

theorem milliseconds_eq_microseconds_div_thousand_witness :
    Time.milliseconds ⟨2, 123456789⟩ = Time.microseconds ⟨2, 123456789⟩ / 1000 :=
  milliseconds_eq_microseconds_div_thousand ⟨2, 123456789⟩ (by decide)

namespace WinMutex

/-- Model of the Windows CRITICAL_SECTION resource: whether
InitializeCriticalSection has created it, and whether it is entered. -/
structure CRITICAL_SECTION where
  inited : Bool
  held : Bool
deriving DecidableEq, Repr

/-- From thread.c (Windows): typedef struct with a CRITICAL_SECTION lock and
a volatile unsigned char init flag. -/
structure Mutex where
  lock : CRITICAL_SECTION
  init : Bool
deriving DecidableEq, Repr

/-- Model of the Windows call InitializeCriticalSection. -/
def InitializeCriticalSection (_cs : CRITICAL_SECTION) : CRITICAL_SECTION :=
  ⟨true, false⟩

/-- Model of the Windows call EnterCriticalSection. -/
def EnterCriticalSection (cs : CRITICAL_SECTION) : CRITICAL_SECTION :=
  { cs with held := true }

/-- Model of the Windows call LeaveCriticalSection. -/
def LeaveCriticalSection (cs : CRITICAL_SECTION) : CRITICAL_SECTION :=
  { cs with held := false }

/-- Model of the Windows call DeleteCriticalSection: the resource no longer
exists. -/
def DeleteCriticalSection (_cs : CRITICAL_SECTION) : CRITICAL_SECTION :=
  ⟨false, false⟩

/-- From thread.c (Windows mutex_init): InitializeCriticalSection the lock,
set init = 1, return 0.  Result is (return value, new Mutex). -/
def mutex_init (m : Mutex) : Int × Mutex :=
  (0, { lock := InitializeCriticalSection m.lock, init := true })

/-- From thread.c (Windows mutex_lock), single-thread semantics: when the
init flag is unset, take the deferred-initialization branch (the initlock
gate dance is modeled in the LazyInit transition system below), initialize
the critical section and set the flag; then EnterCriticalSection; return 0. -/
def mutex_lock (m : Mutex) : Int × Mutex :=
  let m2 :=
    if m.init = false then
      { lock := InitializeCriticalSection m.lock, init := true }
    else m
  (0, { m2 with lock := EnterCriticalSection m2.lock })

/-- From thread.c (Windows mutex_unlock): LeaveCriticalSection, return 0. -/
def mutex_unlock (m : Mutex) : Int × Mutex :=
  (0, { m with lock := LeaveCriticalSection m.lock })

/-- From thread.c (Windows mutex_end): DeleteCriticalSection the lock, set
init = 0, return 0. -/
def mutex_end (m : Mutex) : Int × Mutex :=
  (0, { lock := DeleteCriticalSection m.lock, init := false })

end WinMutex

/-- Claim C3: on the Windows backend mutex_lock and mutex_unlock return 0
for every input Mutex; neither has an error-returning branch. -/
theorem windows_lock_unlock_always_return_zero (m : WinMutex.Mutex) :
    (WinMutex.mutex_lock m).1 = 0 ∧ (WinMutex.mutex_unlock m).1 = 0 :=
  ⟨rfl, rfl⟩

/-- Claim C4: on the Windows backend, for every initialized Mutex, mutex_end
returns 0, deletes the critical-section resource and resets the init flag to
unset, so that a subsequent mutex_lock takes the deferred-initialization
path again: it re-creates the critical-section resource and sets the init
flag before acquiring. -/
theorem windows_mutex_end_resets_and_reinit (m : WinMutex.Mutex)
    (hinit : m.init = true) :
    (WinMutex.mutex_end m).1 = 0 ∧
    (WinMutex.mutex_end m).2.init = false ∧
    (WinMutex.mutex_end m).2.lock.inited = false ∧
    (WinMutex.mutex_lock (WinMutex.mutex_end m).2).2.init = true ∧
    (WinMutex.mutex_lock (WinMutex.mutex_end m).2).2.lock.inited = true := by
  refine ⟨rfl, rfl, rfl, ?_, ?_⟩ <;>
    simp [WinMutex.mutex_end, WinMutex.mutex_lock, WinMutex.DeleteCriticalSection,
      WinMutex.InitializeCriticalSection, WinMutex.EnterCriticalSection]

theorem windows_mutex_end_resets_and_reinit_witness :
    (WinMutex.mutex_end ⟨⟨true, false⟩, true⟩).1 = 0 ∧
    (WinMutex.mutex_end ⟨⟨true, false⟩, true⟩).2.init = false ∧
    (WinMutex.mutex_end ⟨⟨true, false⟩, true⟩).2.lock.inited = false ∧
    (WinMutex.mutex_lock (WinMutex.mutex_end ⟨⟨true, false⟩, true⟩).2).2.init = true ∧
    (WinMutex.mutex_lock (WinMutex.mutex_end ⟨⟨true, false⟩, true⟩).2).2.lock.inited = true :=
  windows_mutex_end_resets_and_reinit ⟨⟨true, false⟩, true⟩ rfl

namespace PosixRW

/-- Model of a POSIX pthread_rwlock_t: the set of holders is abstracted as a
writer flag and a reader count. -/
structure RWLockSt where
  writer : Bool
  readers : Nat
deriving DecidableEq, Repr

/-- Model of the external POSIX call pthread_rwlock_unlock: releases the
held mode of the calling thread (writer if held exclusively, else one
reader); unlocking an unheld lock reports an error code. -/
def pthread_rwlock_unlock (l : RWLockSt) : Int × RWLockSt :=
  if l.writer = true then (0, { l with writer := false })
  else if 0 < l.readers then (0, { l with readers := l.readers - 1 })
  else (1, l)

/-- From mpthread.h (POSIX): #define rwlock_rdunlock(rwl) pthread_rwlock_unlock(rwl). -/
def rwlock_rdunlock (l : RWLockSt) : Int × RWLockSt := pthread_rwlock_unlock l

/-- From mpthread.h (POSIX): #define rwlock_wrunlock(rwl) pthread_rwlock_unlock(rwl). -/
def rwlock_wrunlock (l : RWLockSt) : Int × RWLockSt := pthread_rwlock_unlock l

end PosixRW

/-- Claim C10: on the POSIX backend, rwlock_rdunlock and rwlock_wrunlock are
the identical operation: both expand to pthread_rwlock_unlock on the same
lock, so on every lock state they return the same result and leave the lock
in the same state. -/
theorem rwlock_rdunlock_eq_wrunlock (l : PosixRW.RWLockSt) :
    PosixRW.rwlock_rdunlock l = PosixRW.rwlock_wrunlock l := rfl

/-- Claim C8: in the narrow-width build (mptime.h, 4-byte long) the
millisecond and microsecond timestamps are faithful up to 2^31 of their
unit: any mathematical timestamp value below 2147483648 is returned
unchanged, and the value 2147483648 itself wraps to -2147483648.  2^31
milliseconds is 24855 millidays (about 24.855 days) and 2^31 microseconds
is 35791 milliminutes (about 35.791 minutes), matching the stated ~24.8-day
and ~35.8-minute wrap points; the 64-bit build (time.c, uint64_t) wraps
only after more than 500 million years of milliseconds. -/
theorem narrow_build_wrap_points :
    (∀ ts : Time.Timespec,
      (ts.tv_sec : Int) * 1000 + (ts.tv_nsec : Int) / 1000000 < 2147483648 →
      Time.mptime_milliseconds ts =
        (ts.tv_sec : Int) * 1000 + (ts.tv_nsec : Int) / 1000000) ∧
    (∀ ts : Time.Timespec,
      (ts.tv_sec : Int) * 1000000 + (ts.tv_nsec : Int) / 1000 < 2147483648 →
      Time.mptime_microseconds ts =
        (ts.tv_sec : Int) * 1000000 + (ts.tv_nsec : Int) / 1000) ∧
    Time.mptime_milliseconds ⟨2147483, 648000000⟩ = -2147483648 ∧
    (2147483648 : Nat) * 1000 / 86400000 = 24855 ∧
    (2147483648 : Nat) * 1000 / 60000000 = 35791 ∧
    500000000 < (Time.U64 : Nat) / 31536000000 := by
  refine ⟨?_, ?_, ?_, by decide, by decide, by decide⟩
  · intro ts hlt
    exact Time.long32_of_eq_self _ (by positivity) hlt
  · intro ts hlt
    exact Time.long32_of_eq_self _ (by positivity) hlt
  · decide

theorem narrow_build_wrap_points_witness :
    Time.mptime_milliseconds ⟨1, 5000000⟩ = 1005 := by
  have h := narrow_build_wrap_points.1 ⟨1, 5000000⟩ (by decide)
  norm_num at h
  exact h

namespace LazyInit

/-- Program counter of one thread executing the Windows mutex_lock
deferred-initialization protocol from thread.c:
  start   = about to test if(!mutex->init)
  spin    = spinning on InterlockedCompareExchange(&initlock, 1, 0)
  recheck = gate held, about to re-test if(!mutex->init)
  doInit  = gate held, about to InitializeCriticalSection(&mutex->lock)
  setFlag = gate held, about to store mutex->init = 1
  relGate = gate held, about to store initlock = 0
  ready   = past the initialization block, about to EnterCriticalSection -/
inductive PC where
  | start
  | spin
  | recheck
  | doInit
  | setFlag
  | relGate
  | ready
deriving DecidableEq, Repr

/-- Shared state of n threads concurrently inside mutex_lock on one Mutex:
the static LONG initlock gate, the volatile unsigned char init flag of the
Mutex, a ghost counter of InitializeCriticalSection calls performed on the
Mutex, and each thread program counter. -/
structure St (n : Nat) where
  initlock : Bool
  initFlag : Bool
  initCount : Nat
  pcs : Fin n → PC

/-- The program counters at which a thread holds the initlock gate. -/
def inGate : PC → Bool
  | .recheck | .doInit | .setFlag | .relGate => true
  | _ => false

/-- Interleaving semantics of the Windows mutex_lock initialization block:
one step is one memory access of one thread, exactly following thread.c. -/
inductive Step {n : Nat} : St n → St n → Prop where
  | start_skip (s : St n) (i : Fin n) :
      s.pcs i = PC.start → s.initFlag = true →
      Step s { s with pcs := Function.update s.pcs i PC.ready }
  | start_lazy (s : St n) (i : Fin n) :
      s.pcs i = PC.start → s.initFlag = false →
      Step s { s with pcs := Function.update s.pcs i PC.spin }
  | cas_win (s : St n) (i : Fin n) :
      s.pcs i = PC.spin → s.initlock = false →
      Step s { s with initlock := true, pcs := Function.update s.pcs i PC.recheck }
  | cas_lose (s : St n) (i : Fin n) :
      s.pcs i = PC.spin → s.initlock = true →
      Step s s
  | recheck_set (s : St n) (i : Fin n) :
      s.pcs i = PC.recheck → s.initFlag = true →
      Step s { s with pcs := Function.update s.pcs i PC.relGate }
  | recheck_unset (s : St n) (i : Fin n) :
      s.pcs i = PC.recheck → s.initFlag = false →
      Step s { s with pcs := Function.update s.pcs i PC.doInit }
  | do_init (s : St n) (i : Fin n) :
      s.pcs i = PC.doInit →
      Step s { s with initCount := s.initCount + 1,
                      pcs := Function.update s.pcs i PC.setFlag }
  | set_flag (s : St n) (i : Fin n) :
      s.pcs i = PC.setFlag →
      Step s { s with initFlag := true, pcs := Function.update s.pcs i PC.relGate }
  | rel_gate (s : St n) (i : Fin n) :
      s.pcs i = PC.relGate →
      Step s { s with initlock := false, pcs := Function.update s.pcs i PC.ready }

/-- A statically-declared Mutex in its zero state (MUTEX_INITIALIZER = {0}),
the static initlock at 0, no initialization performed, and every one of the
n threads about to execute mutex_lock. -/
def initSt (n : Nat) : St n :=
  { initlock := false, initFlag := false, initCount := 0, pcs := fun _ => PC.start }

/-- States reachable from the uninitialized Mutex by any interleaving of the
n concurrent mutex_lock calls. -/
def Reachable {n : Nat} (s : St n) : Prop :=
  Relation.ReflTransGen Step (initSt n) s

/-- Inductive invariant of the initialization protocol: the gate region is
mutually exclusive and tied to the initlock value, a thread past the
re-check with the flag unset keeps the flag unset until it stores it, a
thread at or past the gate release has seen the flag set, and the number of
initializations is 0 before the flag or a pending store exists and 1 after. -/
def Inv {n : Nat} (s : St n) : Prop :=
  (∀ i j : Fin n, inGate (s.pcs i) = true → inGate (s.pcs j) = true → i = j) ∧
  (s.initlock = true ↔ ∃ i : Fin n, inGate (s.pcs i) = true) ∧
  (∀ i : Fin n, s.pcs i = PC.doInit ∨ s.pcs i = PC.setFlag → s.initFlag = false) ∧
  (∀ i : Fin n, s.pcs i = PC.relGate ∨ s.pcs i = PC.ready → s.initFlag = true) ∧
  (s.initCount =
    if s.initFlag = true ∨ ∃ i : Fin n, s.pcs i = PC.setFlag then 1 else 0)

lemma inv_initSt (n : Nat) : Inv (initSt n) := by
  refine ⟨?_, ?_, ?_, ?_, ?_⟩
  · intro i j hi
    simp [initSt, inGate] at hi
  · simp [initSt, inGate]
  · intro i
    simp [initSt]
  · intro i h
    simp [initSt] at h
  · simp [initSt]

end LazyInit

namespace LazyInit

lemma exists_gate_update_iff {n : Nat} (pcs : Fin n → PC) (i : Fin n) (P : PC)
    (h : inGate P = inGate (pcs i)) :
    (∃ a : Fin n, inGate (Function.update pcs i P a) = true) ↔
      (∃ a : Fin n, inGate (pcs a) = true) := by
  constructor
  · rintro ⟨a, ha⟩
    rw [Function.update_apply] at ha
    by_cases hai : a = i
    · rw [if_pos hai] at ha
      exact ⟨i, by rw [← h]; exact ha⟩
    · rw [if_neg hai] at ha
      exact ⟨a, ha⟩
  · rintro ⟨a, ha⟩
    by_cases hai : a = i
    · refine ⟨i, ?_⟩
      rw [Function.update_apply, if_pos rfl, h, ← hai]
      exact ha
    · refine ⟨a, ?_⟩
      rw [Function.update_apply, if_neg hai]
      exact ha

lemma exists_pc_update_iff {n : Nat} (pcs : Fin n → PC) (i : Fin n) (P Q : PC)
    (hP : P ≠ Q) (hi : pcs i ≠ Q) :
    (∃ a : Fin n, Function.update pcs i P a = Q) ↔ (∃ a : Fin n, pcs a = Q) := by
  constructor
  · rintro ⟨a, ha⟩
    rw [Function.update_apply] at ha
    by_cases hai : a = i
    · rw [if_pos hai] at ha
      exact absurd ha hP
    · rw [if_neg hai] at ha
      exact ⟨a, ha⟩
  · rintro ⟨a, ha⟩
    by_cases hai : a = i
    · subst hai
      exact absurd ha hi
    · refine ⟨a, ?_⟩
      rw [Function.update_apply, if_neg hai]
      exact ha

lemma inv_step {n : Nat} {s1 s2 : St n} (hstep : Step s1 s2) (hinv : Inv s1) :
    Inv s2 := by
  cases hstep with
  | start_skip i hpc hflag =>
    obtain ⟨hex, hlock, hlow, hhigh, hcnt⟩ := hinv
    refine ⟨?_, ?_, ?_, ?_, ?_⟩
    · intro a b ha hb
      simp only [Function.update_apply] at ha hb
      by_cases hai : a = i
      · rw [if_pos hai] at ha
        simp [inGate] at ha
      · rw [if_neg hai] at ha
        by_cases hbi : b = i
        · rw [if_pos hbi] at hb
          simp [inGate] at hb
        · rw [if_neg hbi] at hb
          exact hex a b ha hb
    · show s1.initlock = true ↔ _
      rw [hlock]
      exact (exists_gate_update_iff s1.pcs i PC.ready (by rw [hpc]; decide)).symm
    · intro a ha
      simp only [Function.update_apply] at ha
      by_cases hai : a = i
      · rw [if_pos hai] at ha
        rcases ha with ha | ha <;> exact absurd ha (by decide)
      · rw [if_neg hai] at ha
        exact hlow a ha
    · intro a _
      exact hflag
    · show s1.initCount = _
      rw [hcnt, if_pos (Or.inl hflag), if_pos (Or.inl hflag)]
  | start_lazy i hpc hflag =>
    obtain ⟨hex, hlock, hlow, hhigh, hcnt⟩ := hinv
    refine ⟨?_, ?_, ?_, ?_, ?_⟩
    · intro a b ha hb
      simp only [Function.update_apply] at ha hb
      by_cases hai : a = i
      · rw [if_pos hai] at ha
        simp [inGate] at ha
      · rw [if_neg hai] at ha
        by_cases hbi : b = i
        · rw [if_pos hbi] at hb
          simp [inGate] at hb
        · rw [if_neg hbi] at hb
          exact hex a b ha hb
    · show s1.initlock = true ↔ _
      rw [hlock]
      exact (exists_gate_update_iff s1.pcs i PC.spin (by rw [hpc]; decide)).symm
    · intro a _
      exact hflag
    · intro a ha
      simp only [Function.update_apply] at ha
      by_cases hai : a = i
      · rw [if_pos hai] at ha
        rcases ha with ha | ha <;> exact absurd ha (by decide)
      · rw [if_neg hai] at ha
        exact hhigh a ha
    · show s1.initCount = _
      rw [hcnt]
      refine if_congr (or_congr Iff.rfl ?_) rfl rfl
      exact (exists_pc_update_iff s1.pcs i PC.spin PC.setFlag
        (by decide) (by rw [hpc]; decide)).symm
  | cas_win i hpc hlockval =>
    obtain ⟨hex, hlock, hlow, hhigh, hcnt⟩ := hinv
    have hnogate : ∀ a : Fin n, inGate (s1.pcs a) = false := by
      intro a
      by_contra hcon
      simp only [Bool.not_eq_false] at hcon
      have hl := hlock.mpr ⟨a, hcon⟩
      rw [hlockval] at hl
      exact absurd hl (by decide)
    refine ⟨?_, ?_, ?_, ?_, ?_⟩
    · intro a b ha hb
      simp only [Function.update_apply] at ha hb
      by_cases hai : a = i
      · by_cases hbi : b = i
        · rw [hai, hbi]
        · rw [if_neg hbi] at hb
          rw [hnogate b] at hb
          exact absurd hb (by decide)
      · rw [if_neg hai] at ha
        rw [hnogate a] at ha
        exact absurd ha (by decide)
    · constructor
      · intro _
        refine ⟨i, ?_⟩
        show inGate (Function.update s1.pcs i PC.recheck i) = true
        rw [Function.update_apply, if_pos rfl]
        decide
      · intro _
        rfl
    · intro a ha
      simp only [Function.update_apply] at ha
      by_cases hai : a = i
      · rw [if_pos hai] at ha
        rcases ha with ha | ha <;> exact absurd ha (by decide)
      · rw [if_neg hai] at ha
        exact hlow a ha
    · intro a ha
      simp only [Function.update_apply] at ha
      by_cases hai : a = i
      · rw [if_pos hai] at ha
        rcases ha with ha | ha <;> exact absurd ha (by decide)
      · rw [if_neg hai] at ha
        exact hhigh a ha
    · show s1.initCount = _
      rw [hcnt]
      refine if_congr (or_congr Iff.rfl ?_) rfl rfl
      exact (exists_pc_update_iff s1.pcs i PC.recheck PC.setFlag
        (by decide) (by rw [hpc]; decide)).symm
  | cas_lose i hpc hlockval =>
    exact hinv
  | recheck_set i hpc hflag =>
    obtain ⟨hex, hlock, hlow, hhigh, hcnt⟩ := hinv
    refine ⟨?_, ?_, ?_, ?_, ?_⟩
    · intro a b ha hb
      simp only [Function.update_apply] at ha hb
      by_cases hai : a = i
      · by_cases hbi : b = i
        · rw [hai, hbi]
        · rw [if_neg hbi] at hb
          have hbig := hex b i hb (by rw [hpc]; decide)
          exact absurd hbig hbi
      · rw [if_neg hai] at ha
        have haig := hex a i ha (by rw [hpc]; decide)
        exact absurd haig hai
    · show s1.initlock = true ↔ _
      rw [hlock]
      exact (exists_gate_update_iff s1.pcs i PC.relGate (by rw [hpc]; decide)).symm
    · intro a ha
      simp only [Function.update_apply] at ha
      by_cases hai : a = i
      · rw [if_pos hai] at ha
        rcases ha with ha | ha <;> exact absurd ha (by decide)
      · rw [if_neg hai] at ha
        exact hlow a ha
    · intro a _
      exact hflag
    · show s1.initCount = _
      rw [hcnt, if_pos (Or.inl hflag), if_pos (Or.inl hflag)]
  | recheck_unset i hpc hflag =>
    obtain ⟨hex, hlock, hlow, hhigh, hcnt⟩ := hinv
    refine ⟨?_, ?_, ?_, ?_, ?_⟩
    · intro a b ha hb
      simp only [Function.update_apply] at ha hb
      by_cases hai : a = i
      · by_cases hbi : b = i
        · rw [hai, hbi]
        · rw [if_neg hbi] at hb
          have hbig := hex b i hb (by rw [hpc]; decide)
          exact absurd hbig hbi
      · rw [if_neg hai] at ha
        have haig := hex a i ha (by rw [hpc]; decide)
        exact absurd haig hai
    · show s1.initlock = true ↔ _
      rw [hlock]
      exact (exists_gate_update_iff s1.pcs i PC.doInit (by rw [hpc]; decide)).symm
    · intro a _
      exact hflag
    · intro a ha
      simp only [Function.update_apply] at ha
      by_cases hai : a = i
      · rw [if_pos hai] at ha
        rcases ha with ha | ha <;> exact absurd ha (by decide)
      · rw [if_neg hai] at ha
        exact hhigh a ha
    · show s1.initCount = _
      rw [hcnt]
      refine if_congr (or_congr Iff.rfl ?_) rfl rfl
      exact (exists_pc_update_iff s1.pcs i PC.doInit PC.setFlag
        (by decide) (by rw [hpc]; decide)).symm
  | do_init i hpc =>
    obtain ⟨hex, hlock, hlow, hhigh, hcnt⟩ := hinv
    have hflag : s1.initFlag = false := hlow i (Or.inl hpc)
    have hnoset : ¬ ∃ a : Fin n, s1.pcs a = PC.setFlag := by
      rintro ⟨a, ha⟩
      have hai : a = i := hex a i (by rw [ha]; decide) (by rw [hpc]; decide)
      rw [hai, hpc] at ha
      exact absurd ha (by decide)
    refine ⟨?_, ?_, ?_, ?_, ?_⟩
    · intro a b ha hb
      simp only [Function.update_apply] at ha hb
      by_cases hai : a = i
      · by_cases hbi : b = i
        · rw [hai, hbi]
        · rw [if_neg hbi] at hb
          have hbig := hex b i hb (by rw [hpc]; decide)
          exact absurd hbig hbi
      · rw [if_neg hai] at ha
        have haig := hex a i ha (by rw [hpc]; decide)
        exact absurd haig hai
    · show s1.initlock = true ↔ _
      rw [hlock]
      exact (exists_gate_update_iff s1.pcs i PC.setFlag (by rw [hpc]; decide)).symm
    · intro a _
      exact hflag
    · intro a ha
      simp only [Function.update_apply] at ha
      by_cases hai : a = i
      · rw [if_pos hai] at ha
        rcases ha with ha | ha <;> exact absurd ha (by decide)
      · rw [if_neg hai] at ha
        exact hhigh a ha
    · show s1.initCount + 1 = _
      rw [hcnt, if_neg ?hold, if_pos ?hnew]
      case hold =>
        rintro (h | h)
        · rw [hflag] at h
          exact absurd h (by decide)
        · exact hnoset h
      case hnew =>
        refine Or.inr ⟨i, ?_⟩
        show Function.update s1.pcs i PC.setFlag i = PC.setFlag
        rw [Function.update_apply, if_pos rfl]
  | set_flag i hpc =>
    obtain ⟨hex, hlock, hlow, hhigh, hcnt⟩ := hinv
    have hflag : s1.initFlag = false := hlow i (Or.inr hpc)
    refine ⟨?_, ?_, ?_, ?_, ?_⟩
    · intro a b ha hb
      simp only [Function.update_apply] at ha hb
      by_cases hai : a = i
      · by_cases hbi : b = i
        · rw [hai, hbi]
        · rw [if_neg hbi] at hb
          have hbig := hex b i hb (by rw [hpc]; decide)
          exact absurd hbig hbi
      · rw [if_neg hai] at ha
        have haig := hex a i ha (by rw [hpc]; decide)
        exact absurd haig hai
    · show s1.initlock = true ↔ _
      rw [hlock]
      exact (exists_gate_update_iff s1.pcs i PC.relGate (by rw [hpc]; decide)).symm
    · intro a ha
      simp only [Function.update_apply] at ha
      by_cases hai : a = i
      · rw [if_pos hai] at ha
        rcases ha with ha | ha <;> exact absurd ha (by decide)
      · rw [if_neg hai] at ha
        have hgate_a : inGate (s1.pcs a) = true := by
          rcases ha with ha | ha <;> rw [ha] <;> decide
        have haig := hex a i hgate_a (by rw [hpc]; decide)
        exact absurd haig hai
    · intro a _
      rfl
    · show s1.initCount = _
      rw [hcnt, if_pos (Or.inr ⟨i, hpc⟩), if_pos (Or.inl rfl)]
  | rel_gate i hpc =>
    obtain ⟨hex, hlock, hlow, hhigh, hcnt⟩ := hinv
    have hflag : s1.initFlag = true := hhigh i (Or.inl hpc)
    have honly : ∀ a : Fin n, a ≠ i → inGate (s1.pcs a) = false := by
      intro a hai
      by_contra hcon
      simp only [Bool.not_eq_false] at hcon
      exact hai (hex a i hcon (by rw [hpc]; decide))
    refine ⟨?_, ?_, ?_, ?_, ?_⟩
    · intro a b ha hb
      simp only [Function.update_apply] at ha hb
      by_cases hai : a = i
      · rw [if_pos hai] at ha
        simp [inGate] at ha
      · rw [if_neg hai] at ha
        rw [honly a hai] at ha
        exact absurd ha (by decide)
    · constructor
      · intro hl
        have hl2 : (false : Bool) = true := hl
        exact absurd hl2 (by decide)
      · rintro ⟨a, ha⟩
        simp only [Function.update_apply] at ha
        by_cases hai : a = i
        · rw [if_pos hai] at ha
          simp [inGate] at ha
        · rw [if_neg hai] at ha
          rw [honly a hai] at ha
          exact absurd ha (by decide)
    · intro a ha
      simp only [Function.update_apply] at ha
      by_cases hai : a = i
      · rw [if_pos hai] at ha
        rcases ha with ha | ha <;> exact absurd ha (by decide)
      · rw [if_neg hai] at ha
        have hgate_a : inGate (s1.pcs a) = true := by
          rcases ha with ha | ha <;> rw [ha] <;> decide
        rw [honly a hai] at hgate_a
        exact absurd hgate_a (by decide)
    · intro a _
      exact hflag
    · show s1.initCount = _
      rw [hcnt, if_pos (Or.inl hflag), if_pos (Or.inl hflag)]


def ex0 : St 1 := initSt 1

def ex1 : St 1 := { ex0 with pcs := Function.update ex0.pcs 0 PC.spin }

def ex2 : St 1 :=
  { ex1 with initlock := true, pcs := Function.update ex1.pcs 0 PC.recheck }

def ex3 : St 1 := { ex2 with pcs := Function.update ex2.pcs 0 PC.doInit }

def ex4 : St 1 :=
  { ex3 with initCount := ex3.initCount + 1,
             pcs := Function.update ex3.pcs 0 PC.setFlag }

def ex5 : St 1 :=
  { ex4 with initFlag := true, pcs := Function.update ex4.pcs 0 PC.relGate }

def ex6 : St 1 :=
  { ex5 with initlock := false, pcs := Function.update ex5.pcs 0 PC.ready }

/-- Sanity check that the protocol model runs: one thread walks the whole
deferred-initialization path of mutex_lock and ends ready with exactly one
initialization performed and the init flag set. -/
lemma full_run_reaches_ready :
    Reachable ex6 ∧ ex6.initCount = 1 ∧ ex6.pcs 0 = PC.ready ∧
      ex6.initFlag = true ∧ ex6.initlock = false := by
  refine ⟨?_, by decide, by decide, by decide, by decide⟩
  have h1 : Step ex0 ex1 := Step.start_lazy ex0 0 rfl rfl
  have h2 : Step ex1 ex2 := Step.cas_win ex1 0 (by decide) rfl
  have h3 : Step ex2 ex3 := Step.recheck_unset ex2 0 (by decide) rfl
  have h4 : Step ex3 ex4 := Step.do_init ex3 0 (by decide)
  have h5 : Step ex4 ex5 := Step.set_flag ex4 0 (by decide)
  have h6 : Step ex5 ex6 := Step.rel_gate ex5 0 (by decide)
  exact Relation.ReflTransGen.tail
    (Relation.ReflTransGen.tail
      (Relation.ReflTransGen.tail
        (Relation.ReflTransGen.tail
          (Relation.ReflTransGen.tail
            (Relation.ReflTransGen.tail Relation.ReflTransGen.refl h1) h2) h3) h4) h5) h6


lemma inv_reachable {n : Nat} {s : St n} (h : Reachable s) : Inv s := by
  unfold Reachable at h
  induction h with
  | refl => exact inv_initSt n
  | tail _ hstep ih => exact inv_step hstep ih

end LazyInit

/-- Claim C1: for a Mutex constructed in its static zero state, under any
interleaving of n concurrent Windows mutex_lock calls, at most one
initialization of the Mutex occurs (each winner of the
InterlockedCompareExchange gate re-checks the init flag before
initializing), and every call observes the init flag set before it reaches
the acquisition of the underlying CRITICAL_SECTION lock. -/
theorem mutex_lazy_init_at_most_once {n : Nat} (s : LazyInit.St n)
    (h : LazyInit.Reachable s) :
    s.initCount ≤ 1 ∧
    ∀ i : Fin n, s.pcs i = LazyInit.PC.ready → s.initFlag = true := by
  obtain ⟨_, _, _, hhigh, hcnt⟩ := LazyInit.inv_reachable h
  constructor
  · rw [hcnt]
    split <;> omega
  · intro i hi
    exact hhigh i (Or.inr hi)

theorem mutex_lazy_init_at_most_once_witness :
    (LazyInit.initSt 2).initCount ≤ 1 :=
  (mutex_lazy_init_at_most_once (LazyInit.initSt 2) Relation.ReflTransGen.refl).1
